import Mathlib

/-!
Verification of the Cell/Table geometric model of `camelot/core.py`
(classes `Cell` and `Table`): construction of the cell grid, the
boundary-assignment algorithms (`set_all_edges`, `set_edges`,
`set_border`), span inference (`set_span`), text accumulation and
`data`.

Modelling conventions:
* Coordinates are rationals (`ℚ`); `np.isclose(a, b, atol) :=
  |a - b| ≤ atol + rtol * |b|` with numpy's default `rtol = 1e-5`.
* Python in-place mutation of the cell grid becomes explicit state
  passing over `Grid := List (List Cell)`.
* Python exceptions (`IndexError` on an out-of-range subscript,
  `NameError` on reading the local variable `L` before assignment)
  become `Except Unit`; Python's negative-index wraparound is modelled
  by `pyIdx`.
* The local variable `L` of `Table.set_edges`, which persists across
  loop iterations (and is read while unassigned in the horizontal
  "only bottom edge" branch), is carried as an `Option ℤ` in the
  state `EdgeState`.
* The pandas DataFrame field `df` and the derived corner tuples
  `lb`, `lt`, `rb`, `rt` of `Cell` (pure redundancies of
  `x1,y1,x2,y2`) are not modelled; no claim concerns them.
-/

namespace Camelot

/-- A cell of the table grid, translated from `Cell.__init__`:
four coordinates, four boundary flags, two span flags, accumulated
text (`_text`, initially empty). -/
structure Cell where
  x1 : ℚ
  y1 : ℚ
  x2 : ℚ
  y2 : ℚ
  left : Bool
  right : Bool
  top : Bool
  bottom : Bool
  hspan : Bool
  vspan : Bool
  text : String
deriving Repr, DecidableEq

/-- Constructor `Cell(x1, y1, x2, y2)`: all flags `False`, text `''`. -/
def Cell.init (x1 y1 x2 y2 : ℚ) : Cell :=
  ⟨x1, y1, x2, y2, false, false, false, false, false, false, ""⟩

instance : Inhabited Cell := ⟨Cell.init 0 0 0 0⟩

/-- The `text` property setter: `self._text = ''.join([self._text, t])`,
i.e. assignment appends.  (The getter returns `_text` unchanged.) -/
def Cell.appendText (c : Cell) (t : String) : Cell :=
  { c with text := c.text ++ t }

/-- Property `Cell.bound`: `self.top + self.bottom + self.left + self.right`
(Python booleans summed as integers). -/
def Cell.bound (c : Cell) : ℕ :=
  c.top.toNat + c.bottom.toNat + c.left.toNat + c.right.toNat

/-- The mutable cell grid `Table.cells`. -/
abbrev Grid := List (List Cell)

/-- Read `self.cells[r][c]` as a partial read (row-major, non-negative
indices). -/
def cellAt (cs : Grid) (r c : ℕ) : Option Cell :=
  (cs.get? r).bind (fun row => row.get? c)

/-- A table, translated from `Table.__init__`: the column and row
interval lists, the cell grid, and the metadata fields (`df` omitted,
see module docstring). -/
structure Table where
  cols : List (ℚ × ℚ)
  rows : List (ℚ × ℚ)
  cells : Grid
  shape : ℕ × ℕ
  accuracy : ℚ
  whitespace : ℚ
  order : Option ℤ
  page : Option ℤ
deriving Repr, DecidableEq

/-- Constructor `Table(cols, rows)`:
`self.cells = [[Cell(c[0], r[1], c[1], r[0]) for c in cols] for r in rows]`,
`self.shape = (0, 0)`, `self.accuracy = 0`, `self.whitespace = 0`,
`self.order = None`, `self.page = None`. -/
def Table.init (cols rows : List (ℚ × ℚ)) : Table :=
  { cols := cols
    rows := rows
    cells := rows.map (fun r => cols.map (fun c => Cell.init c.1 r.2 c.2 r.1))
    shape := (0, 0)
    accuracy := 0
    whitespace := 0
    order := none
    page := none }

/-- Python `str.strip()`: remove leading and trailing whitespace
(modelled over the character list; `Char.isWhitespace` covers the
space, tab, newline and carriage-return characters). -/
def pyStrip (s : String) : String :=
  ⟨((s.data.dropWhile Char.isWhitespace).reverse.dropWhile
      Char.isWhitespace).reverse⟩

/-- Property `Table.data`: `[[cell.text.strip() for cell in row] for row in self.cells]`. -/
def Table.data (t : Table) : List (List String) :=
  t.cells.map (fun row => row.map (fun c => pyStrip c.text))

/-- Method `Table.set_all_edges`: every cell's four boundary flags set `True`. -/
def Table.set_all_edges (t : Table) : Table :=
  { t with cells := t.cells.map (fun row => row.map (fun c =>
      { c with left := true, right := true, top := true, bottom := true })) }

/-- The body of the `set_span` loop for one cell, translated branch by
branch from `Table.set_span`. -/
def spanCell (cell : Cell) : Cell :=
  let l := cell.left
  let r := cell.right
  let t := cell.top
  let b := cell.bottom
  if cell.bound = 4 then cell
  else if cell.bound = 3 then
    if !l && (r && t && b) then { cell with hspan := true }
    else if !r && (l && t && b) then { cell with hspan := true }
    else if !t && (l && r && b) then { cell with vspan := true }
    else if !b && (l && r && t) then { cell with vspan := true }
    else cell
  else if cell.bound = 2 then
    if l && r && (!t && !b) then { cell with vspan := true }
    else if t && b && (!l && !r) then { cell with hspan := true }
    else cell
  else cell

/-- Method `Table.set_span`: apply the classification to every cell.  The
Python method mutates in place and can raise no exception. -/
def Table.set_span (t : Table) : Table :=
  { t with cells := t.cells.map (fun row => row.map spanCell) }

instance {ε α : Type} [DecidableEq ε] [DecidableEq α] :
    DecidableEq (Except ε α) := fun
  | .error a, .error b =>
    if h : a = b then .isTrue (by rw [h])
    else .isFalse (fun hh => h (Except.error.inj hh))
  | .error _, .ok _ => .isFalse (fun hh => Except.noConfusion hh)
  | .ok _, .error _ => .isFalse (fun hh => Except.noConfusion hh)
  | .ok a, .ok b =>
    if h : a = b then .isTrue (by rw [h])
    else .isFalse (fun hh => h (Except.ok.inj hh))

/-! ## `set_edges` and `set_border` -/

/-- numpy's default relative tolerance in `np.isclose`. -/
def npRtol : ℚ := 1 / 100000

/-- Predicate `np.isclose(a, b, atol=atol)` on scalars:
`|a - b| <= atol + rtol * |b|` with numpy's default `rtol = 1e-5`.
Implemented by integer cross-multiplication (so that the kernel can
evaluate it on concrete inputs); `isclose_eq_true_iff` below proves it
equivalent to the formula. -/
def isclose (atol a b : ℚ) : Bool :=
  decide (((a.num * (b.den : ℤ) - b.num * (a.den : ℤ)).natAbs : ℤ)
        * ((atol.den : ℤ) * (100000 * (b.den : ℤ)))
      ≤ (atol.num * (100000 * (b.den : ℤ)) + (b.num.natAbs : ℤ) * (atol.den : ℤ))
        * ((a.den : ℤ) * (b.den : ℤ)))

/-- Comprehension `[i for i, t in enumerate(ts) if np.isclose(x, t[0], atol=atol)]`:
the indices of the intervals whose first coordinate is close to `x`. -/
def matchIdxs (atol x : ℚ) (ts : List (ℚ × ℚ)) : List ℕ :=
  (ts.enum.filter (fun p => isclose atol x p.2.1)).map Prod.fst

/-- Python list subscripting: a negative index wraps from the end;
out of range is `none` (an `IndexError`). -/
def pyIdx (len : ℕ) (i : ℤ) : Option ℕ :=
  if 0 ≤ i then
    if i < (len : ℤ) then some i.toNat else none
  else
    if -i ≤ (len : ℤ) then some ((len : ℤ) + i).toNat else none

/-- Write `self.cells[r][c].flag = True` for a flag-update `f`: resolve both
indices Python-style, fail (`IndexError`) when either is out of range. -/
def setCellE (cs : Grid) (r c : ℤ) (f : Cell → Cell) : Except Unit Grid :=
  match pyIdx cs.length r with
  | none => .error ()
  | some ri =>
    match pyIdx (cs.getD ri []).length c with
    | none => .error ()
    | some ci =>
      .ok (cs.set ri ((cs.getD ri []).set ci (f ((cs.getD ri []).getD ci default))))

def markLeft (c : Cell) : Cell := { c with left := true }
def markRight (c : Cell) : Cell := { c with right := true }
def markTop (c : Cell) : Cell := { c with top := true }
def markBottom (c : Cell) : Cell := { c with bottom := true }

/-- Fold a fallible step over a list, stopping at the first error
(the shape shared by the `for` loops and `while` loops of
`set_edges`/`set_border`). -/
def exceptFold (f : α → σ → Except Unit σ) : List α → σ → Except Unit σ
  | [], s => .ok s
  | a :: rest, s =>
    match f a s with
    | .error e => .error e
    | .ok s2 => exceptFold f rest s2

/-- The `while J < K` loops of `set_edges`, which run a write for each
index `J, J+1, ..., K-1`. -/
def runLoop (body : ℕ → Grid → Except Unit Grid) (J K : ℕ) :
    Grid → Except Unit Grid :=
  exceptFold body (List.range' J (K - J))

/-- State threaded through `set_edges`: the cell grid plus the Python
local variable `L`, which is unassigned (`none`) until some branch
assigns it and persists across loop iterations. -/
structure EdgeState where
  cells : Grid
  lvar : Option ℤ
deriving Repr, DecidableEq

/-- Run one `while J < K` loop on the grid of the state, then record
the (re)assigned Python local `L` — the shared tail of every non-skip
branch of `set_edges`. -/
def runBranch (body : ℕ → Grid → Except Unit Grid) (J K : ℕ)
    (s : EdgeState) (newL : Option ℤ) : Except Unit EdgeState :=
  match runLoop body J K s.cells with
  | .error e => .error e
  | .ok cs2 => .ok ⟨cs2, newL⟩

/-- One iteration of the `for v in vertical` loop of `Table.set_edges`,
translated branch by branch.  `v = (v0, v1, v2, v3)`; the code reads
`v[0]`, `v[3]` and `v[1]`.  In each branch Python computes
`K = k[0]` when `k` is nonempty and `K = len(self.rows)` otherwise,
then runs the write loop for `J <= r < K`. -/
def processVertical (atol : ℚ) (cols rows : List (ℚ × ℚ))
    (v : ℚ × ℚ × ℚ × ℚ) (s : EdgeState) : Except Unit EdgeState :=
  match v with
  | (v0, v1, _, v3) =>
    let i := matchIdxs atol v0 cols
    let j := matchIdxs atol v3 rows
    let k := matchIdxs atol v1 rows
    match j with
    | [] => .ok s
    | J :: _ =>
      let K : ℕ := match k with | [] => rows.length | K1 :: _ => K1
      if i = [0] then
        -- only left edge
        let L : ℤ := (i.headD 0 : ℕ)
        runBranch (fun r cs => setCellE cs (r : ℤ) L markLeft) J K s (some L)
      else if i = [] then
        -- only right edge
        let L : ℤ := (cols.length : ℤ) - 1
        runBranch (fun r cs => setCellE cs (r : ℤ) L markRight) J K s (some L)
      else
        -- both left and right edges
        let L : ℤ := (i.headD 0 : ℕ)
        runBranch (fun r cs =>
          match setCellE cs (r : ℤ) L markLeft with
          | .error e => .error e
          | .ok cs2 => setCellE cs2 (r : ℤ) (L - 1) markRight) J K s (some L)

/-- One iteration of the `for h in horizontal` loop of
`Table.set_edges`.  `h = (h0, h1, h2, h3)`; the code reads `h[1]`,
`h[0]` and `h[2]`.  In the "only bottom edge" branch the code assigns
the (otherwise unused) variable `I = len(self.rows) - 1` but indexes
the row with the stale loop variable `L` (`self.cells[L][J]`): reading
`L` while it is still unassigned is a `NameError`, and `L` keeps its
stale value afterwards. -/
def processHorizontal (atol : ℚ) (cols rows : List (ℚ × ℚ))
    (h : ℚ × ℚ × ℚ × ℚ) (s : EdgeState) : Except Unit EdgeState :=
  match h with
  | (h0, h1, h2, _) =>
    let i := matchIdxs atol h1 rows
    let j := matchIdxs atol h0 cols
    let k := matchIdxs atol h2 cols
    match j with
    | [] => .ok s
    | J :: _ =>
      let K : ℕ := match k with | [] => cols.length | K1 :: _ => K1
      if i = [0] then
        -- only top edge
        let L : ℤ := (i.headD 0 : ℕ)
        runBranch (fun c cs => setCellE cs L (c : ℤ) markTop) J K s (some L)
      else if i = [] then
        -- only bottom edge (the buggy branch, see docstring)
        runBranch (fun c cs =>
          match s.lvar with
          | none => .error ()
          | some stale => setCellE cs stale (c : ℤ) markBottom) J K s s.lvar
      else
        -- both top and bottom edges
        let L : ℤ := (i.headD 0 : ℕ)
        runBranch (fun c cs =>
          match setCellE cs L (c : ℤ) markTop with
          | .error e => .error e
          | .ok cs2 => setCellE cs2 (L - 1) (c : ℤ) markBottom) J K s (some L)

/-- Method `Table.set_edges(vertical, horizontal, joint_close_tol)`: process
every vertical segment, then every horizontal segment, threading the
grid and the local `L`. -/
def Table.set_edges (t : Table) (vertical horizontal : List (ℚ × ℚ × ℚ × ℚ))
    (atol : ℚ) : Except Unit Table :=
  match exceptFold (processVertical atol t.cols t.rows) vertical ⟨t.cells, none⟩ with
  | .error e => .error e
  | .ok s1 =>
    match exceptFold (processHorizontal atol t.cols t.rows) horizontal s1 with
    | .error e => .error e
    | .ok s2 => .ok { t with cells := s2.cells }

/-- Method `Table.set_border`: `left` on column 0 and `right` on the last
column of every row, then `top` on row 0 and `bottom` on the last row
of every column (Python raises `IndexError` on a degenerate grid where
a subscript misses). -/
def Table.set_border (t : Table) : Except Unit Table :=
  let n := t.rows.length
  let m := t.cols.length
  match exceptFold (fun (r : ℕ) cs =>
      match setCellE cs (r : ℤ) 0 markLeft with
      | .error e => .error e
      | .ok cs2 => setCellE cs2 (r : ℤ) ((m : ℤ) - 1) markRight)
      (List.range n) t.cells with
  | .error e => .error e
  | .ok cs1 =>
    match exceptFold (fun (c : ℕ) cs =>
        match setCellE cs 0 (c : ℤ) markTop with
        | .error e => .error e
        | .ok cs2 => setCellE cs2 ((n : ℤ) - 1) (c : ℤ) markBottom)
        (List.range m) cs1 with
    | .error e => .error e
    | .ok cs2 => .ok { t with cells := cs2 }


/-! ## Definitions used in theorem statements -/

/-- The four boundary flags of a cell, `(left, right, top, bottom)`. -/
def flagsOf (c : Cell) : Bool × Bool × Bool × Bool :=
  (c.left, c.right, c.top, c.bottom)

/-- The boundary flags of every cell of a table. -/
def flagGrid (t : Table) : List (List (Bool × Bool × Bool × Bool)) :=
  t.cells.map (fun row => row.map flagsOf)

/-- The total number of boundary flags set in a grid. -/
def totalBound (cs : Grid) : ℕ :=
  (cs.map (fun row => (row.map Cell.bound).sum)).sum

/-- Boundary flags only ever go from `false` to `true`. -/
def CellLe (c d : Cell) : Prop :=
  (c.left = true → d.left = true) ∧ (c.right = true → d.right = true)
  ∧ (c.top = true → d.top = true) ∧ (c.bottom = true → d.bottom = true)

/-- Pointwise flag monotonicity between two grids of the same shape. -/
def GridLe : Grid → Grid → Prop :=
  List.Forall₂ (List.Forall₂ CellLe)

/-- Two grids have the same dimensions (same number of rows,
corresponding rows of the same length). -/
def GridDims (cs cs2 : Grid) : Prop :=
  cs2.length = cs.length
  ∧ ∀ r row row2, cs.get? r = some row → cs2.get? r = some row2 →
      row2.length = row.length

/-- A cell of a `Table.init` grid with the given boundary flags
(span flags false, empty text). -/
def borderCell (civ riv : ℚ × ℚ) (l r t b : Bool) : Cell :=
  ⟨civ.1, riv.2, civ.2, riv.1, l, r, t, b, false, false, ""⟩

/-- The spec's concrete scenario grid:
`cols = [(0,10),(10,20)]`, `rows = [(20,10),(10,0)]`. -/
def TEx : Table := Table.init [(0, 10), (10, 20)] [(20, 10), (10, 0)]

/-- Table `TEx` after its first column has received a left boundary on every
row (the expected outcome of a full-height vertical ruling at `x = 0`). -/
def TEx2 : Table :=
  { cols := [(0, 10), (10, 20)]
    rows := [(20, 10), (10, 0)]
    cells :=
      [[⟨0, 10, 10, 20, true, false, false, false, false, false, ""⟩,
        ⟨10, 10, 20, 20, false, false, false, false, false, false, ""⟩],
       [⟨0, 0, 10, 10, true, false, false, false, false, false, ""⟩,
        ⟨10, 0, 20, 10, false, false, false, false, false, false, ""⟩]]
    shape := (0, 0)
    accuracy := 0
    whitespace := 0
    order := none
    page := none }

/-- A cell bounded on left, top and bottom (bound 3, missing right). -/
def CW3 : Cell := ⟨0, 0, 1, 1, true, false, true, true, false, false, ""⟩

/-- A 1×1 table holding `CW3`. -/
def TC3 : Table := ⟨[(0, 1)], [(1, 0)], [[CW3]], (0, 0), 0, 0, none, none⟩

/-- A 1×1 table whose only cell has accumulated text `" a "`. -/
def TW8 : Table :=
  ⟨[(0, 1)], [(1, 0)], [[(Cell.init 0 0 1 1).appendText " a "]],
    (0, 0), 0, 0, none, none⟩

/-- The result of `set_border` on the spec's concrete scenario grid. -/
def TEx3 : Table :=
  { cols := [(0, 10), (10, 20)]
    rows := [(20, 10), (10, 0)]
    cells :=
      [[⟨0, 10, 10, 20, true, false, true, false, false, false, ""⟩,
        ⟨10, 10, 20, 20, false, true, true, false, false, false, ""⟩],
       [⟨0, 0, 10, 10, true, false, false, true, false, false, ""⟩,
        ⟨10, 0, 20, 10, false, true, false, true, false, false, ""⟩]]
    shape := (0, 0)
    accuracy := 0
    whitespace := 0
    order := none
    page := none }

/-! ## Theorems -/

theorem isclose_eq_true_iff (atol a b : ℚ) :
    isclose atol a b = true ↔ |a - b| ≤ atol + npRtol * |b| := by
  unfold isclose npRtol
  rw [decide_eq_true_eq]
  have had : (0 : ℚ) < (a.den : ℚ) := by exact_mod_cast a.pos
  have hbd : (0 : ℚ) < (b.den : ℚ) := by exact_mod_cast b.pos
  have htd : (0 : ℚ) < (atol.den : ℚ) := by exact_mod_cast atol.pos
  have hsub : a - b = ((a.num * (b.den : ℤ) - b.num * (a.den : ℤ) : ℤ) : ℚ)
      / ((a.den : ℚ) * (b.den : ℚ)) := by
    conv_lhs => rw [← Rat.num_div_den a, ← Rat.num_div_den b]
    rw [div_sub_div _ _ (ne_of_gt had) (ne_of_gt hbd)]
    push_cast
    ring
  have habs : |a - b| = (((a.num * (b.den : ℤ) - b.num * (a.den : ℤ)).natAbs : ℤ) : ℚ)
      / ((a.den : ℚ) * (b.den : ℚ)) := by
    rw [hsub, abs_div, abs_of_pos (mul_pos had hbd)]
    congr 1
    rw [← Int.abs_eq_natAbs, Int.cast_abs]
  have hb : |b| = (((b.num.natAbs : ℤ) : ℚ)) / (b.den : ℚ) := by
    conv_lhs => rw [← Rat.num_div_den b]
    rw [abs_div, abs_of_pos hbd]
    congr 1
    rw [← Int.abs_eq_natAbs, Int.cast_abs]
  have ht : atol = ((atol.num : ℤ) : ℚ) / (atol.den : ℚ) := (Rat.num_div_den atol).symm
  rw [habs, hb]
  conv_rhs => rw [ht]
  rw [show (1 : ℚ) / 100000 * ((((b.num.natAbs : ℤ) : ℚ)) / (b.den : ℚ))
      = (((b.num.natAbs : ℤ) : ℚ)) / (100000 * (b.den : ℚ)) from by ring]
  rw [div_add_div _ _ (ne_of_gt htd) (by positivity),
    div_le_div_iff₀ (by positivity) (by positivity),
    mul_comm ((atol.den : ℚ)) ((((b.num.natAbs : ℤ) : ℚ)))]
  constructor
  · intro h
    exact_mod_cast h
  · intro h
    exact_mod_cast h

/-- Reading a cell of a grid mapped cell-by-cell. -/
theorem cellAt_mapGrid (f : Cell → Cell) (cs : Grid) (r c : ℕ) :
    cellAt (cs.map (fun row => row.map f)) r c = (cellAt cs r c).map f := by
  unfold cellAt
  rw [List.get?_map]
  cases cs.get? r with
  | none => rfl
  | some row => simp [List.get?_map]

/-- Reading a cell of a freshly constructed table. -/
theorem cellAt_init (cols rows : List (ℚ × ℚ)) (r c : ℕ) :
    cellAt (Table.init cols rows).cells r c
      = (rows.get? r).bind (fun riv => (cols.get? c).map (fun civ =>
          Cell.init civ.1 riv.2 civ.2 riv.1)) := by
  unfold Table.init cellAt
  rw [List.get?_map]
  cases rows.get? r with
  | none => rfl
  | some riv => simp [List.get?_map]

/-- Method `set_span` does nothing to a cell with no boundary flag set. -/
theorem spanCell_fresh (x1 y1 x2 y2 : ℚ) :
    spanCell (Cell.init x1 y1 x2 y2) = Cell.init x1 y1 x2 y2 := rfl

/-- C4: for every Table constructed from N row intervals and M column
intervals, the cell grid has exactly N rows of M cells each, and
cell(r,c) has bounding box
`(x1,y1,x2,y2) = (cols[c].left, rows[r].bottom, cols[c].right, rows[r].top)`,
with all boundary and span flags false and empty text. -/
theorem c4_table_init_grid (cols rows : List (ℚ × ℚ)) :
    (Table.init cols rows).cells.length = rows.length
    ∧ (∀ row ∈ (Table.init cols rows).cells, row.length = cols.length)
    ∧ (∀ (r c : ℕ) (rowIv colIv : ℚ × ℚ),
        rows.get? r = some rowIv → cols.get? c = some colIv →
        cellAt (Table.init cols rows).cells r c
          = some ⟨colIv.1, rowIv.2, colIv.2, rowIv.1,
              false, false, false, false, false, false, ""⟩) := by
  refine ⟨by simp [Table.init], ?_, ?_⟩
  · intro row hrow
    simp only [Table.init, List.mem_map] at hrow
    obtain ⟨riv, _, rfl⟩ := hrow
    simp
  · intro r c rowIv colIv hr hc
    rw [cellAt_init, hr, Option.some_bind, hc]
    simp [Cell.init]

/-- Witness for C4 at the spec's concrete grid: cell (0,1). -/
theorem c4_table_init_grid_witness :
    cellAt TEx.cells 0 1
      = some ⟨10, 10, 20, 20, false, false, false, false, false, false, ""⟩ :=
  (c4_table_init_grid [(0, 10), (10, 20)] [(20, 10), (10, 0)]).2.2 0 1
    (20, 10) (10, 20) rfl rfl

/-- C10: a newly constructed Table has `shape = (0,0)` (not the grid's
row/column counts), zero accuracy and whitespace, and no order or
page. -/
theorem c10_table_init_defaults (cols rows : List (ℚ × ℚ)) :
    (Table.init cols rows).shape = (0, 0)
    ∧ (Table.init cols rows).accuracy = 0
    ∧ (Table.init cols rows).whitespace = 0
    ∧ (Table.init cols rows).order = none
    ∧ (Table.init cols rows).page = none
    ∧ (rows ≠ [] ∨ cols ≠ [] →
        (Table.init cols rows).shape ≠ (rows.length, cols.length)) := by
  refine ⟨rfl, rfl, rfl, rfl, rfl, ?_⟩
  intro hne hcontra
  simp only [Table.init, Prod.mk.injEq] at hcontra
  obtain ⟨h1, h2⟩ := hcontra
  rcases hne with hr | hc
  · exact hr (List.length_eq_zero.mp h1.symm)
  · exact hc (List.length_eq_zero.mp (by omega))

/-- Witness for C10 at a 1×1 grid. -/
theorem c10_table_init_defaults_witness :
    (Table.init [(0, 1)] [(1, 0)]).shape ≠ (1, 1) := by
  have h := (c10_table_init_defaults [(0, 1)] [(1, 0)]).2.2.2.2.2
    (Or.inl (by simp))
  simpa using h

/-- C9: `set_span` on a freshly constructed Table (every cell at
bound 0) leaves all `hspan`/`vspan` flags false; the operation is total
(no error is possible). -/
theorem c9_set_span_before_boundaries (cols rows : List (ℚ × ℚ))
    (r c : ℕ) (cell : Cell)
    (h : cellAt (Table.init cols rows).set_span.cells r c = some cell) :
    cell.hspan = false ∧ cell.vspan = false := by
  simp only [Table.set_span] at h
  rw [cellAt_mapGrid, cellAt_init] at h
  cases hr : rows.get? r with
  | none => rw [hr] at h; simp at h
  | some riv =>
    cases hc : cols.get? c with
    | none => rw [hr, hc] at h; simp at h
    | some civ =>
      rw [hr, hc] at h
      simp only [Option.some_bind, Option.map_some'] at h
      rw [spanCell_fresh] at h
      cases h
      exact ⟨rfl, rfl⟩

/-- Witness for C9 at a 1×1 grid. -/
theorem c9_set_span_before_boundaries_witness :
    (Cell.init 0 0 1 1).hspan = false ∧ (Cell.init 0 0 1 1).vspan = false :=
  c9_set_span_before_boundaries [(0, 1)] [(1, 0)] 0 0 (Cell.init 0 0 1 1)
    (by decide)

/-- Method `set_span` never changes a cell's boundary flags. -/
theorem spanCell_flags (cell : Cell) :
    (spanCell cell).left = cell.left ∧ (spanCell cell).right = cell.right
    ∧ (spanCell cell).top = cell.top ∧ (spanCell cell).bottom = cell.bottom := by
  obtain ⟨x1, y1, x2, y2, l, r, t, b, hs, vs, tx⟩ := cell
  cases l <;> cases r <;> cases t <;> cases b <;>
    simp [spanCell, Cell.bound]

/-- Case analysis of the `set_span` classification on one cell whose
span flags start false. -/
theorem spanCell_classify (cell : Cell)
    (hh : cell.hspan = false) (hv : cell.vspan = false) :
    ((spanCell cell).hspan = true ↔
      (cell.bound = 3 ∧ (cell.left = false ∨ cell.right = false))
      ∨ (cell.bound = 2 ∧ cell.top = true ∧ cell.bottom = true
          ∧ cell.left = false ∧ cell.right = false))
    ∧ ((spanCell cell).vspan = true ↔
      (cell.bound = 3 ∧ (cell.top = false ∨ cell.bottom = false))
      ∨ (cell.bound = 2 ∧ cell.left = true ∧ cell.right = true
          ∧ cell.top = false ∧ cell.bottom = false))
    ∧ ¬((spanCell cell).hspan = true ∧ (spanCell cell).vspan = true) := by
  obtain ⟨x1, y1, x2, y2, l, r, t, b, hs, vs, tx⟩ := cell
  dsimp only at hh hv
  subst hh
  subst hv
  cases l <;> cases r <;> cases t <;> cases b <;>
    simp [spanCell, Cell.bound]

/-- C3: after `set_span`, every cell is classified exactly by its
boundary flags: bound 3 missing left or right gives `hspan`; bound 3
missing top or bottom gives `vspan`; bound 2 with exactly left+right
gives `vspan`; bound 2 with exactly top+bottom gives `hspan`; all
other configurations set no span flag; and no cell has both flags. -/
theorem c3_set_span_classification (t : Table)
    (h : ∀ row ∈ t.cells, ∀ cell ∈ row, cell.hspan = false ∧ cell.vspan = false)
    (r c : ℕ) (cell : Cell) (hc : cellAt t.cells r c = some cell) :
    cellAt t.set_span.cells r c = some (spanCell cell)
    ∧ (spanCell cell).left = cell.left ∧ (spanCell cell).right = cell.right
    ∧ (spanCell cell).top = cell.top ∧ (spanCell cell).bottom = cell.bottom
    ∧ ((spanCell cell).hspan = true ↔
        (cell.bound = 3 ∧ (cell.left = false ∨ cell.right = false))
        ∨ (cell.bound = 2 ∧ cell.top = true ∧ cell.bottom = true
            ∧ cell.left = false ∧ cell.right = false))
    ∧ ((spanCell cell).vspan = true ↔
        (cell.bound = 3 ∧ (cell.top = false ∨ cell.bottom = false))
        ∨ (cell.bound = 2 ∧ cell.left = true ∧ cell.right = true
            ∧ cell.top = false ∧ cell.bottom = false))
    ∧ ¬((spanCell cell).hspan = true ∧ (spanCell cell).vspan = true) := by
  have hmap : cellAt t.set_span.cells r c = some (spanCell cell) := by
    simp only [Table.set_span]
    rw [cellAt_mapGrid, hc]
    rfl
  have hmem : ∃ row, row ∈ t.cells ∧ cell ∈ row := by
    unfold cellAt at hc
    cases hrow : t.cells.get? r with
    | none => rw [hrow] at hc; simp at hc
    | some row =>
      rw [hrow] at hc
      simp only [Option.some_bind] at hc
      exact ⟨row, List.get?_mem hrow, List.get?_mem hc⟩
  obtain ⟨row, hrow, hcell⟩ := hmem
  obtain ⟨hh, hv⟩ := h row hrow cell hcell
  obtain ⟨e1, e2, e3⟩ := spanCell_classify cell hh hv
  obtain ⟨f1, f2, f3, f4⟩ := spanCell_flags cell
  exact ⟨hmap, f1, f2, f3, f4, e1, e2, e3⟩

/-- Witness for C3 at a bound-3 cell missing its right edge. -/
theorem c3_set_span_classification_witness :
    (spanCell CW3).hspan = true ↔
      (CW3.bound = 3 ∧ (CW3.left = false ∨ CW3.right = false))
      ∨ (CW3.bound = 2 ∧ CW3.top = true ∧ CW3.bottom = true
          ∧ CW3.left = false ∧ CW3.right = false) :=
  (c3_set_span_classification TC3 (by decide) 0 0 CW3 (by decide)).2.2.2.2.2.1

/-- C8 (counterexample): reading `Cell.text` returns the accumulated
value untrimmed — appending `" a "` and reading back gives `" a "`,
not the whitespace-trimmed `"a"` the claim requires. -/
theorem c8_counterexample :
    ((Cell.init 0 0 1 1).appendText " a ").text = " a "
    ∧ pyStrip " a " = "a"
    ∧ ((Cell.init 0 0 1 1).appendText " a ").text
        ≠ pyStrip ((Cell.init 0 0 1 1).appendText " a ").text := by decide

/-- C8 (amended): appends concatenate without separator in call order
and reads return the raw accumulation (no trimming); `Table.data`
returns the per-cell accumulated text with surrounding whitespace
trimmed, with the same dimensions as the cell grid. -/
theorem c8_text_accumulation_and_data :
    (∀ (c : Cell) (ss : List String),
        (ss.foldl Cell.appendText c).text = ss.foldl (fun acc s => acc ++ s) c.text)
    ∧ (∀ (t : Table) (r c : ℕ) (cell : Cell),
        cellAt t.cells r c = some cell →
        (t.data.get? r).bind (fun row => row.get? c) = some (pyStrip cell.text))
    ∧ (∀ t : Table, t.data.length = t.cells.length
        ∧ ∀ r, (t.data.get? r).map List.length = (t.cells.get? r).map List.length) := by
  refine ⟨?_, ?_, ?_⟩
  · intro c ss
    induction ss generalizing c with
    | nil => rfl
    | cons s rest ih =>
      simp only [List.foldl_cons]
      exact ih (c.appendText s)
  · intro t r c cell hc
    unfold cellAt at hc
    unfold Table.data
    rw [List.get?_map]
    cases hrow : t.cells.get? r with
    | none => rw [hrow] at hc; simp at hc
    | some row =>
      rw [hrow] at hc
      simp only [Option.some_bind] at hc
      simp only [Option.map_some', Option.some_bind]
      rw [List.get?_map, hc]
      rfl
  · intro t
    refine ⟨by simp [Table.data], ?_⟩
    intro r
    unfold Table.data
    rw [List.get?_map]
    cases t.cells.get? r <;> simp

/-- Witness for C8's data access at a 1×1 table with text `" a "`. -/
theorem c8_text_accumulation_and_data_witness :
    (TW8.data.get? 0).bind (fun row => row.get? 0)
      = some (pyStrip ((Cell.init 0 0 1 1).appendText " a ").text) :=
  c8_text_accumulation_and_data.2.1 TW8 0 0
    ((Cell.init 0 0 1 1).appendText " a ") (by decide)

/-- C1 (counterexample): on the spec's concrete scenario — `TEx` with
`vertical = [(0,20,0,0)]`, no horizontal lines, tolerance 2 — the
segment's fourth coordinate (0) matches no row top, so `set_edges`
returns the table unchanged: `cells[0][0].left` remains false, contrary
to the claim. -/
theorem c1_counterexample :
    TEx.set_edges [(0, 20, 0, 0)] [] 2 = .ok TEx
    ∧ cellAt TEx.cells 0 0 = some (Cell.init 0 10 10 20)
    ∧ (Cell.init 0 10 10 20).left = false := by decide

/-- C1 (amended): the same scenario with the vertical line's
y-extremities given bottom-first, `(0,0,0,20)` (so that the coordinate
the code anchors against the row tops is 20), sets `left` on
`cells[0][0]` and `cells[1][0]` and no other flag. -/
theorem c1_amended_left_edge_scenario :
    (TEx.set_edges [(0, 0, 0, 20)] [] 2).map flagGrid
      = .ok [[(true, false, false, false), (false, false, false, false)],
             [(true, false, false, false), (false, false, false, false)]] := by decide

/-- C2 (code bug): the horizontal "only bottom edge" branch assigns
`I = len(self.rows) - 1` but indexes with the stale `L`.  The segment
`(0,50,20,50)` has `h[1] = 50` matching no row and `h[0] = 0` matching
column 0, so the claim requires `bottom` on the last row's cells; the
code instead raises `NameError` when `L` is unassigned, and when a
preceding vertical segment left `L = 0` it sets `bottom` on row 0
(the top row), not the last row. -/
theorem c2_bottom_branch_stale_variable :
    matchIdxs 2 50 TEx.rows = []
    ∧ matchIdxs 2 0 TEx.cols = [0]
    ∧ TEx.set_edges [] [(0, 50, 20, 50)] 2 = .error ()
    ∧ (TEx.set_edges [(0, 0, 0, 20)] [(0, 50, 20, 50)] 2).map flagGrid
      = .ok [[(true, false, false, true), (false, false, false, true)],
             [(true, false, false, false), (false, false, false, false)]] := by decide

/-- C6 (amended): a vertical segment whose fourth coordinate `v[3]`
(the y the code anchors against the row tops — the segment's upper
extremity when its y-extremities are ordered bottom-to-top) matches no
row boundary within tolerance is silently discarded: processing it
leaves the state untouched, and `set_edges` with only that segment
returns the table unchanged. -/
theorem c6_unanchored_vertical_noop (atol : ℚ) (v : ℚ × ℚ × ℚ × ℚ) :
    (∀ (cols rows : List (ℚ × ℚ)) (s : EdgeState),
        matchIdxs atol v.2.2.2 rows = [] →
        processVertical atol cols rows v s = .ok s)
    ∧ (∀ t : Table, matchIdxs atol v.2.2.2 t.rows = [] →
        t.set_edges [v] [] atol = .ok t) := by
  obtain ⟨v0, v1, v2, v3⟩ := v
  have key : ∀ (cols rows : List (ℚ × ℚ)) (s : EdgeState),
      matchIdxs atol v3 rows = [] →
      processVertical atol cols rows (v0, v1, v2, v3) s = .ok s := by
    intro cols rows s h
    simp [processVertical, h]
  refine ⟨key, ?_⟩
  intro t h
  simp only [Table.set_edges, exceptFold,
    key t.cols t.rows ⟨t.cells, none⟩ h]

/-- C6 (counterexample): the segment `(0,5,0,20)` has y-extremities 5
and 20; its lower extremity 5 matches no row boundary of `TEx`, yet the
segment is not discarded — it sets `left` flags (because the code
anchors `v[3] = 20`, the upper extremity). -/
theorem c6_counterexample :
    matchIdxs 2 5 TEx.rows = []
    ∧ (TEx.set_edges [(0, 5, 0, 20)] [] 2).map flagGrid
        = .ok [[(true, false, false, false), (false, false, false, false)],
               [(true, false, false, false), (false, false, false, false)]]
    ∧ (TEx.set_edges [(0, 5, 0, 20)] [] 2).map flagGrid ≠ .ok (flagGrid TEx) :=
  ⟨by decide, by decide, by decide⟩

/-- Witness for C6 at the spec's concrete grid and the segment
`(0,20,0,0)`, whose fourth coordinate 0 matches no row top. -/
theorem c6_unanchored_vertical_noop_witness :
    processVertical 2 TEx.cols TEx.rows (0, 20, 0, 0) ⟨TEx.cells, none⟩
        = .ok ⟨TEx.cells, none⟩
    ∧ TEx.set_edges [(0, 20, 0, 0)] [] 2 = .ok TEx :=
  ⟨(c6_unanchored_vertical_noop 2 (0, 20, 0, 0)).1 TEx.cols TEx.rows
      ⟨TEx.cells, none⟩ (by decide),
   (c6_unanchored_vertical_noop 2 (0, 20, 0, 0)).2 TEx (by decide)⟩

/-! ## Monotonicity of the boundary-assignment operations (C7) -/

theorem cellLe_refl (c : Cell) : CellLe c c :=
  ⟨fun h => h, fun h => h, fun h => h, fun h => h⟩

theorem cellLe_trans {a b c : Cell} (h1 : CellLe a b) (h2 : CellLe b c) :
    CellLe a c :=
  ⟨fun h => h2.1 (h1.1 h), fun h => h2.2.1 (h1.2.1 h),
   fun h => h2.2.2.1 (h1.2.2.1 h), fun h => h2.2.2.2 (h1.2.2.2 h)⟩

theorem forall2_refl {α : Type} {R : α → α → Prop} (hR : ∀ a, R a a) :
    ∀ l : List α, List.Forall₂ R l l
  | [] => .nil
  | a :: l => .cons (hR a) (forall2_refl hR l)

theorem forall2_trans {α : Type} {R : α → α → Prop}
    (hR : ∀ a b c, R a b → R b c → R a c) :
    ∀ {l1 l2 l3 : List α},
      List.Forall₂ R l1 l2 → List.Forall₂ R l2 l3 → List.Forall₂ R l1 l3 := by
  intro l1 l2 l3 h12
  induction h12 generalizing l3 with
  | nil => intro h; exact h
  | cons ha hrest ih =>
    intro h23
    cases h23 with
    | cons hb hrest2 => exact .cons (hR _ _ _ ha hb) (ih hrest2)

theorem forall2_map_self {α : Type} {R : α → α → Prop} (f : α → α)
    (hf : ∀ a, R a (f a)) : ∀ l : List α, List.Forall₂ R l (l.map f)
  | [] => .nil
  | a :: l => .cons (hf a) (forall2_map_self f hf l)

theorem gridLe_refl (cs : Grid) : GridLe cs cs :=
  forall2_refl (fun row => forall2_refl cellLe_refl row) cs

theorem gridLe_trans {a b c : Grid} (h1 : GridLe a b) (h2 : GridLe b c) :
    GridLe a c :=
  @forall2_trans (List Cell) (List.Forall₂ CellLe)
    (fun _ _ _ g1 g2 =>
      @forall2_trans Cell CellLe (fun _ _ _ d1 d2 => cellLe_trans d1 d2)
        _ _ _ g1 g2)
    a b c h1 h2

theorem gridLe_mapGrid (f : Cell → Cell) (hf : ∀ c, CellLe c (f c)) (cs : Grid) :
    GridLe cs (cs.map (fun row => row.map f)) :=
  forall2_map_self _ (fun row => forall2_map_self f hf row) cs

theorem gridLe_dims {cs cs2 : Grid} (h : GridLe cs cs2) : GridDims cs cs2 := by
  constructor
  · exact (List.Forall₂.length_eq h).symm
  · intro r row row2 h1 h2
    induction h generalizing r with
    | nil => simp at h1
    | cons hab hrest ih =>
      cases r with
      | zero =>
        simp only [List.get?] at h1 h2
        cases h1
        cases h2
        exact hab.length_eq.symm
      | succ n =>
        simp only [List.get?] at h1 h2
        exact ih n h1 h2

theorem rowLe_set (row : List Cell) (ci : ℕ) (f : Cell → Cell)
    (hf : ∀ c, CellLe c (f c)) :
    List.Forall₂ CellLe row (row.set ci (f (row.getD ci default))) := by
  induction row generalizing ci with
  | nil => exact .nil
  | cons a l ih =>
    cases ci with
    | zero => exact .cons (hf a) (forall2_refl cellLe_refl l)
    | succ n => exact .cons (cellLe_refl a) (ih n)

theorem gridLe_set (cs : Grid) (ri ci : ℕ) (f : Cell → Cell)
    (hf : ∀ c, CellLe c (f c)) :
    GridLe cs
      (cs.set ri ((cs.getD ri []).set ci (f ((cs.getD ri []).getD ci default)))) := by
  induction cs generalizing ri with
  | nil => exact .nil
  | cons row rest ih =>
    cases ri with
    | zero =>
      exact .cons (rowLe_set row ci f hf)
        (forall2_refl (fun q => forall2_refl cellLe_refl q) rest)
    | succ n => exact .cons (forall2_refl cellLe_refl row) (ih n)

theorem setCellE_le {cs cs2 : Grid} {r c : ℤ} {f : Cell → Cell}
    (hf : ∀ a, CellLe a (f a)) (h : setCellE cs r c f = .ok cs2) :
    GridLe cs cs2 := by
  unfold setCellE at h
  split at h
  · exact Except.noConfusion h
  · split at h
    · exact Except.noConfusion h
    · cases h
      exact gridLe_set cs _ _ f hf

theorem markLeft_le (c : Cell) : CellLe c (markLeft c) :=
  ⟨fun _ => rfl, fun h => h, fun h => h, fun h => h⟩

theorem markRight_le (c : Cell) : CellLe c (markRight c) :=
  ⟨fun h => h, fun _ => rfl, fun h => h, fun h => h⟩

theorem markTop_le (c : Cell) : CellLe c (markTop c) :=
  ⟨fun h => h, fun h => h, fun _ => rfl, fun h => h⟩

theorem markBottom_le (c : Cell) : CellLe c (markBottom c) :=
  ⟨fun h => h, fun h => h, fun h => h, fun _ => rfl⟩

theorem exceptFold_rel {α σ : Type} (R : σ → σ → Prop)
    (hrefl : ∀ s, R s s) (htrans : ∀ a b c, R a b → R b c → R a c)
    (f : α → σ → Except Unit σ)
    (hstep : ∀ a s s2, f a s = .ok s2 → R s s2) :
    ∀ (l : List α) (s s2 : σ), exceptFold f l s = .ok s2 → R s s2 := by
  intro l
  induction l with
  | nil =>
    intro s s2 h
    unfold exceptFold at h
    cases h
    exact hrefl s
  | cons a rest ih =>
    intro s s2 h
    unfold exceptFold at h
    cases hfa : f a s with
    | error e => rw [hfa] at h; exact Except.noConfusion h
    | ok s3 => rw [hfa] at h; exact htrans _ _ _ (hstep a s s3 hfa) (ih s3 s2 h)

/-- A `while` loop whose body only turns boundary flags on is monotone
on the grid. -/
theorem runLoop_le {body : ℕ → Grid → Except Unit Grid}
    (hbody : ∀ i cs cs2, body i cs = .ok cs2 → GridLe cs cs2)
    {J K : ℕ} {cs cs2 : Grid} (h : runLoop body J K cs = .ok cs2) :
    GridLe cs cs2 :=
  exceptFold_rel GridLe gridLe_refl (fun _ _ _ => gridLe_trans) body hbody
    (List.range' J (K - J)) cs cs2 h

theorem runBranch_le {body : ℕ → Grid → Except Unit Grid}
    (hbody : ∀ i cs cs2, body i cs = .ok cs2 → GridLe cs cs2)
    {J K : ℕ} {s s2 : EdgeState} {newL : Option ℤ}
    (h : runBranch body J K s newL = .ok s2) :
    GridLe s.cells s2.cells := by
  unfold runBranch at h
  split at h
  · exact Except.noConfusion h
  · cases h
    rename_i cs2 hrun
    exact runLoop_le hbody hrun

/-- The body writing two flags per iteration (interior-line branches)
is monotone. -/
theorem twoWrite_le {f g : Cell → Cell}
    (hf : ∀ a, CellLe a (f a)) (hg : ∀ a, CellLe a (g a))
    (r1 c1 r2 c2 : ℤ) (cs cs2 : Grid)
    (h : (match setCellE cs r1 c1 f with
          | Except.error e => Except.error e
          | Except.ok csm => setCellE csm r2 c2 g) = .ok cs2) :
    GridLe cs cs2 := by
  cases hw : setCellE cs r1 c1 f with
  | error e => rw [hw] at h; exact Except.noConfusion h
  | ok csm =>
    rw [hw] at h
    exact gridLe_trans (setCellE_le hf hw) (setCellE_le hg h)

theorem processVertical_le {atol : ℚ} {cols rows : List (ℚ × ℚ)}
    {v : ℚ × ℚ × ℚ × ℚ} {s s2 : EdgeState}
    (h : processVertical atol cols rows v s = .ok s2) :
    GridLe s.cells s2.cells := by
  obtain ⟨v0, v1, v2, v3⟩ := v
  unfold processVertical at h
  dsimp only at h
  split at h
  · cases h; exact gridLe_refl _
  · split at h
    · exact runBranch_le
        (fun i cs cs2 hb => setCellE_le markLeft_le hb) h
    · split at h
      · exact runBranch_le
          (fun i cs cs2 hb => setCellE_le markRight_le hb) h
      · exact runBranch_le
          (fun i cs cs2 hb =>
            twoWrite_le markLeft_le markRight_le _ _ _ _ cs cs2 hb) h

theorem processHorizontal_le {atol : ℚ} {cols rows : List (ℚ × ℚ)}
    {hline : ℚ × ℚ × ℚ × ℚ} {s s2 : EdgeState}
    (h : processHorizontal atol cols rows hline s = .ok s2) :
    GridLe s.cells s2.cells := by
  obtain ⟨h0, h1, h2, h3⟩ := hline
  unfold processHorizontal at h
  dsimp only at h
  split at h
  · cases h; exact gridLe_refl _
  · split at h
    · exact runBranch_le
        (fun i cs cs2 hb => setCellE_le markTop_le hb) h
    · split at h
      · refine runBranch_le (fun i cs cs2 hb => ?_) h
        cases hl : s.lvar with
        | none => rw [hl] at hb; exact Except.noConfusion hb
        | some stale => rw [hl] at hb; exact setCellE_le markBottom_le hb
      · exact runBranch_le
          (fun i cs cs2 hb =>
            twoWrite_le markTop_le markBottom_le _ _ _ _ cs cs2 hb) h

theorem set_edges_le {t : Table} {vertical horizontal : List (ℚ × ℚ × ℚ × ℚ)}
    {atol : ℚ} {t2 : Table}
    (h : t.set_edges vertical horizontal atol = .ok t2) :
    t2.cols = t.cols ∧ t2.rows = t.rows ∧ GridLe t.cells t2.cells := by
  unfold Table.set_edges at h
  split at h
  · exact Except.noConfusion h
  · rename_i s1 heq1
    split at h
    · exact Except.noConfusion h
    · rename_i s2 heq2
      cases h
      refine ⟨rfl, rfl, ?_⟩
      have g1 : GridLe t.cells s1.cells :=
        exceptFold_rel (fun a b => GridLe a.cells b.cells)
          (fun a => gridLe_refl a.cells) (fun _ _ _ => gridLe_trans)
          (processVertical atol t.cols t.rows)
          (fun _ _ _ hb => processVertical_le hb) vertical ⟨t.cells, none⟩ s1 heq1
      have g2 : GridLe s1.cells s2.cells :=
        exceptFold_rel (fun a b => GridLe a.cells b.cells)
          (fun a => gridLe_refl a.cells) (fun _ _ _ => gridLe_trans)
          (processHorizontal atol t.cols t.rows)
          (fun _ _ _ hb => processHorizontal_le hb) horizontal s1 s2 heq2
      exact gridLe_trans g1 g2

theorem set_border_le {t t2 : Table} (h : t.set_border = .ok t2) :
    t2.cols = t.cols ∧ t2.rows = t.rows ∧ GridLe t.cells t2.cells := by
  unfold Table.set_border at h
  dsimp only at h
  split at h
  · exact Except.noConfusion h
  · rename_i cs1 heq1
    split at h
    · exact Except.noConfusion h
    · rename_i cs2 heq2
      cases h
      refine ⟨rfl, rfl, ?_⟩
      have g1 : GridLe t.cells cs1 :=
        exceptFold_rel GridLe gridLe_refl (fun _ _ _ => gridLe_trans) _
          (fun a cs cs2 hb =>
            twoWrite_le markLeft_le markRight_le _ _ _ _ cs cs2 hb)
          (List.range t.rows.length) t.cells cs1 heq1
      have g2 : GridLe cs1 cs2 :=
        exceptFold_rel GridLe gridLe_refl (fun _ _ _ => gridLe_trans) _
          (fun a cs cs2 hb =>
            twoWrite_le markTop_le markBottom_le _ _ _ _ cs cs2 hb)
          (List.range t.cols.length) cs1 cs2 heq2
      exact gridLe_trans g1 g2

/-- C7: every Table operation (`set_all_edges`, `set_edges`,
`set_border`, `set_span`) keeps the interval lists and the grid
dimensions unchanged and only turns boundary flags from false to true;
and every cell's `bound` lies in `[0, 4]`. -/
theorem c7_operations_preserve_invariants :
    (∀ t : Table, t.set_all_edges.cols = t.cols ∧ t.set_all_edges.rows = t.rows
        ∧ GridDims t.cells t.set_all_edges.cells
        ∧ GridLe t.cells t.set_all_edges.cells)
    ∧ (∀ t t2 : Table, t.set_border = .ok t2 →
        t2.cols = t.cols ∧ t2.rows = t.rows
        ∧ GridDims t.cells t2.cells ∧ GridLe t.cells t2.cells)
    ∧ (∀ (t : Table) (vertical horizontal : List (ℚ × ℚ × ℚ × ℚ)) (atol : ℚ)
        (t2 : Table), t.set_edges vertical horizontal atol = .ok t2 →
        t2.cols = t.cols ∧ t2.rows = t.rows
        ∧ GridDims t.cells t2.cells ∧ GridLe t.cells t2.cells)
    ∧ (∀ t : Table, t.set_span.cols = t.cols ∧ t.set_span.rows = t.rows
        ∧ GridDims t.cells t.set_span.cells ∧ GridLe t.cells t.set_span.cells)
    ∧ (∀ c : Cell, c.bound ≤ 4) := by
  refine ⟨?_, ?_, ?_, ?_, ?_⟩
  · intro t
    have hle : GridLe t.cells t.set_all_edges.cells :=
      gridLe_mapGrid _ (fun c => ⟨fun _ => rfl, fun _ => rfl, fun _ => rfl,
        fun _ => rfl⟩) t.cells
    exact ⟨rfl, rfl, gridLe_dims hle, hle⟩
  · intro t t2 h
    obtain ⟨e1, e2, hle⟩ := set_border_le h
    exact ⟨e1, e2, gridLe_dims hle, hle⟩
  · intro t vertical horizontal atol t2 h
    obtain ⟨e1, e2, hle⟩ := set_edges_le h
    exact ⟨e1, e2, gridLe_dims hle, hle⟩
  · intro t
    have hle : GridLe t.cells t.set_span.cells := by
      refine gridLe_mapGrid spanCell (fun c => ?_) t.cells
      obtain ⟨f1, f2, f3, f4⟩ := spanCell_flags c
      exact ⟨fun hh => by rw [f1]; exact hh, fun hh => by rw [f2]; exact hh,
        fun hh => by rw [f3]; exact hh, fun hh => by rw [f4]; exact hh⟩
    exact ⟨rfl, rfl, gridLe_dims hle, hle⟩
  · intro c
    obtain ⟨x1, y1, x2, y2, l, r, t, b, hs, vs, tx⟩ := c
    cases l <;> cases r <;> cases t <;> cases b <;> simp [Cell.bound]

/-- Witness for C7: `set_edges` on the concrete scenario grid. -/
theorem c7_operations_preserve_invariants_witness :
    TEx2.cols = TEx.cols ∧ TEx2.rows = TEx.rows
    ∧ GridDims TEx.cells TEx2.cells ∧ GridLe TEx.cells TEx2.cells :=
  c7_operations_preserve_invariants.2.2.1 TEx [(0, 0, 0, 20)] [] 2 TEx2
    (by decide)

/-! ## `set_border` characterization (C5) -/

theorem pyIdx_natCast (len r : ℕ) (hr : r < len) : pyIdx len (r : ℤ) = some r := by
  unfold pyIdx
  rw [if_pos (by exact_mod_cast Nat.zero_le r), if_pos (by exact_mod_cast hr)]
  simp

theorem getD_eq_of_get? {α : Type} {l : List α} {n : ℕ} {x : α} (d : α)
    (h : l.get? n = some x) : l.getD n d = x := by
  rw [List.getD_eq_get?, h]
  rfl

theorem get?_eq_some_getD {α : Type} (l : List α) (n : ℕ) (d : α)
    (h : n < l.length) : l.get? n = some (l.getD n d) := by
  rw [List.get?_eq_get h, List.getD_eq_get?, List.get?_eq_get h]
  rfl

theorem cellAt_of_lt (cs : Grid) (r c : ℕ) (hr : r < cs.length) :
    cellAt cs r c = (cs.getD r []).get? c := by
  unfold cellAt
  rw [get?_eq_some_getD cs r [] hr]
  rfl

theorem setCellE_nat_ok (cs : Grid) (r c : ℕ) (f : Cell → Cell)
    (hr : r < cs.length) (hc : c < (cs.getD r []).length) :
    setCellE cs (r : ℤ) (c : ℤ) f
      = .ok (cs.set r ((cs.getD r []).set c (f ((cs.getD r []).getD c default)))) := by
  unfold setCellE
  rw [pyIdx_natCast _ _ hr]
  dsimp only
  rw [pyIdx_natCast _ _ hc]

theorem cellAt_set (cs : Grid) (ri ci : ℕ) (x : Cell) (r c : ℕ)
    (hri : ri < cs.length) (hci : ci < (cs.getD ri []).length) :
    cellAt (cs.set ri ((cs.getD ri []).set ci x)) r c
      = if r = ri ∧ c = ci then some x else cellAt cs r c := by
  unfold cellAt
  by_cases hr : r = ri
  · subst hr
    rw [List.get?_set_eq_of_lt _ hri]
    simp only [Option.some_bind]
    by_cases hc : c = ci
    · subst hc
      rw [List.get?_set_eq_of_lt _ hci]
      simp
    · rw [List.get?_set_ne _ _ (Ne.symm hc), if_neg (fun hh => hc hh.2),
        get?_eq_some_getD cs r [] hri]
      rfl
  · rw [List.get?_set_ne _ _ (Ne.symm hr), if_neg (fun hh => hr hh.1)]

theorem getD_set_self (cs : Grid) (ri : ℕ) (v : List Cell) (hri : ri < cs.length) :
    (cs.set ri v).getD ri [] = v :=
  getD_eq_of_get? [] (List.get?_set_eq_of_lt _ (by simpa using hri))

theorem getD_set_ne (cs : Grid) (ri r : ℕ) (v : List Cell) (h : ri ≠ r) :
    (cs.set ri v).getD r [] = cs.getD r [] := by
  rw [List.getD_eq_get?, List.get?_set_ne _ _ h, List.getD_eq_get?]

/-- One iteration of the first `set_border` loop: row `a` receives
`left` on column 0 and `right` on the last column. -/
theorem border1_step (cols rows : List (ℚ × ℚ)) (hm : 1 < cols.length)
    (a : ℕ) (cs : Grid) (han : a < rows.length)
    (hlen : cs.length = rows.length)
    (hrows : ∀ r, r < rows.length → (cs.getD r []).length = cols.length)
    (hptw : ∀ (r c : ℕ) (riv civ : ℚ × ℚ), rows.get? r = some riv →
        cols.get? c = some civ →
        cellAt cs r c = some (borderCell civ riv
          (decide (r < a ∧ c = 0)) (decide (r < a ∧ c = cols.length - 1))
          false false)) :
    ∃ cs2,
      (match setCellE cs (a : ℤ) 0 markLeft with
        | Except.error e => Except.error e
        | Except.ok csx =>
            setCellE csx (a : ℤ) ((cols.length : ℤ) - 1) markRight)
        = Except.ok cs2
      ∧ cs2.length = rows.length
      ∧ (∀ r, r < rows.length → (cs2.getD r []).length = cols.length)
      ∧ (∀ (r c : ℕ) (riv civ : ℚ × ℚ), rows.get? r = some riv →
          cols.get? c = some civ →
          cellAt cs2 r c = some (borderCell civ riv
            (decide (r < a + 1 ∧ c = 0))
            (decide (r < a + 1 ∧ c = cols.length - 1)) false false)) := by
  have hm0 : (0 : ℕ) < cols.length := by omega
  have hmm : cols.length - 1 < cols.length := by omega
  have hne0m : (0 : ℕ) ≠ cols.length - 1 := by omega
  have hriva := get?_eq_some_getD rows a (0, 0) han
  have hciv0 := get?_eq_some_getD cols 0 (0, 0) hm0
  have hcivm := get?_eq_some_getD cols (cols.length - 1) (0, 0) hmm
  set riva := rows.getD a (0, 0)
  set civ0 := cols.getD 0 (0, 0)
  set civm := cols.getD (cols.length - 1) (0, 0)
  set X0 := borderCell civ0 riva false false false false with hX0
  set Xm := borderCell civm riva false false false false with hXm
  have hcell0 := hptw a 0 _ _ hriva hciv0
  rw [show decide (a < a ∧ (0 : ℕ) = 0) = false from by simp,
      show decide (a < a ∧ (0 : ℕ) = cols.length - 1) = false from by simp]
    at hcell0
  have hcellm := hptw a (cols.length - 1) _ _ hriva hcivm
  rw [show decide (a < a ∧ cols.length - 1 = 0) = false from by simp,
      show decide (a < a ∧ cols.length - 1 = cols.length - 1) = false
        from by simp] at hcellm
  set rowA := cs.getD a [] with hrowA
  have hr1 : a < cs.length := by omega
  have hc1 : 0 < rowA.length := by rw [hrowA, hrows a han]; omega
  have hg0 : rowA.get? 0 = some X0 := by
    rw [hrowA, ← cellAt_of_lt _ _ _ hr1]; exact hcell0
  set csA := cs.set a (rowA.set 0 (markLeft X0)) with hcsA
  have hw1 : setCellE cs (a : ℤ) 0 markLeft = .ok csA := by
    have hh := setCellE_nat_ok cs a 0 markLeft hr1 hc1
    rw [getD_eq_of_get? default hg0] at hh
    exact hh
  have hgA : csA.getD a [] = rowA.set 0 (markLeft X0) :=
    getD_set_self cs a _ hr1
  have hlenA : csA.length = rows.length := by
    rw [hcsA, List.length_set]; exact hlen
  have hr2 : a < csA.length := by omega
  have hc2 : cols.length - 1 < (csA.getD a []).length := by
    rw [hgA, List.length_set, hrowA, hrows a han]; omega
  have hgm : (csA.getD a []).get? (cols.length - 1) = some Xm := by
    rw [hgA, List.get?_set_ne _ _ hne0m, hrowA, ← cellAt_of_lt _ _ _ hr1]
    exact hcellm
  set csB := csA.set a ((csA.getD a []).set (cols.length - 1) (markRight Xm))
    with hcsB
  have hw2ok : setCellE csA (a : ℤ) ((cols.length - 1 : ℕ) : ℤ) markRight
      = .ok csB := by
    have hh := setCellE_nat_ok csA a (cols.length - 1) markRight hr2 hc2
    rw [getD_eq_of_get? default hgm] at hh
    exact hh
  have hlenB : csB.length = rows.length := by
    rw [hcsB, List.length_set]; exact hlenA
  have hrowsA : ∀ r, r < rows.length → (csA.getD r []).length = cols.length := by
    intro r hr
    by_cases hra : a = r
    · subst hra
      rw [hgA, List.length_set, hrowA]
      exact hrows a han
    · rw [hcsA, getD_set_ne _ _ _ _ hra]
      exact hrows r hr
  have hrowsB : ∀ r, r < rows.length → (csB.getD r []).length = cols.length := by
    intro r hr
    by_cases hra : a = r
    · subst hra
      rw [hcsB, getD_set_self _ _ _ hr2, List.length_set]
      exact hrowsA a han
    · rw [hcsB, getD_set_ne _ _ _ _ hra]
      exact hrowsA r hr
  refine ⟨csB, ?_, hlenB, hrowsB, ?_⟩
  · rw [hw1]
    dsimp only
    rw [show ((cols.length : ℤ) - 1) = ((cols.length - 1 : ℕ) : ℤ) from by omega]
    exact hw2ok
  · intro r c riv civ hrg hcg
    have hAeq := cellAt_set csA a (cols.length - 1) (markRight Xm) r c hr2 hc2
    have hBeq := cellAt_set cs a 0 (markLeft X0) r c hr1 hc1
    rw [← hrowA, ← hcsA] at hBeq
    rw [← hcsB] at hAeq
    rw [hAeq, hBeq, hptw r c riv civ hrg hcg]
    by_cases hra : r = a
    · subst hra
      have hriv : riv = riva := Option.some.inj (hrg.symm.trans hriva)
      subst hriv
      by_cases hc0 : c = 0
      · subst hc0
        have hcive : civ = civ0 := Option.some.inj (hcg.symm.trans hciv0)
        subst hcive
        rw [if_neg (fun hh => hne0m hh.2), if_pos ⟨rfl, rfl⟩,
          show decide (r < r + 1 ∧ (0 : ℕ) = 0) = true from by simp,
          show decide (r < r + 1 ∧ (0 : ℕ) = cols.length - 1) = false from by
            simp only [decide_eq_false_iff_not]
            intro hh
            omega]
        rfl
      · by_cases hcm : c = cols.length - 1
        · subst hcm
          have hcive : civ = civm := Option.some.inj (hcg.symm.trans hcivm)
          subst hcive
          rw [if_pos ⟨rfl, rfl⟩,
            show decide (r < r + 1 ∧ cols.length - 1 = 0) = false from by
              simp only [decide_eq_false_iff_not]
              intro hh
              omega,
            show decide (r < r + 1 ∧ cols.length - 1 = cols.length - 1) = true
              from by simp]
          rfl
        · rw [if_neg (fun hh => hcm hh.2), if_neg (fun hh => hc0 hh.2),
            show decide (r < r + 1 ∧ c = 0) = decide (r < r ∧ c = 0) from
              decide_eq_decide.mpr (by omega),
            show decide (r < r + 1 ∧ c = cols.length - 1)
                = decide (r < r ∧ c = cols.length - 1) from
              decide_eq_decide.mpr (by omega)]
    · rw [if_neg (fun hh => hra hh.1), if_neg (fun hh => hra hh.1),
        show decide (r < a + 1 ∧ c = 0) = decide (r < a ∧ c = 0) from
          decide_eq_decide.mpr (by omega),
        show decide (r < a + 1 ∧ c = cols.length - 1)
            = decide (r < a ∧ c = cols.length - 1) from
          decide_eq_decide.mpr (by omega)]

/-- The first `set_border` loop, processing rows `a`, …, `a+k-1`. -/
theorem border_loop1 (cols rows : List (ℚ × ℚ)) (hm : 1 < cols.length) :
    ∀ (k a : ℕ) (cs : Grid), a + k ≤ rows.length →
    cs.length = rows.length →
    (∀ r, r < rows.length → (cs.getD r []).length = cols.length) →
    (∀ (r c : ℕ) (riv civ : ℚ × ℚ), rows.get? r = some riv →
        cols.get? c = some civ →
        cellAt cs r c = some (borderCell civ riv
          (decide (r < a ∧ c = 0)) (decide (r < a ∧ c = cols.length - 1))
          false false)) →
    ∃ cs2,
      exceptFold (fun (r : ℕ) cs =>
          match setCellE cs (r : ℤ) 0 markLeft with
          | .error e => .error e
          | .ok csx => setCellE csx (r : ℤ) ((cols.length : ℤ) - 1) markRight)
        (List.range' a k) cs = .ok cs2
      ∧ cs2.length = rows.length
      ∧ (∀ r, r < rows.length → (cs2.getD r []).length = cols.length)
      ∧ (∀ (r c : ℕ) (riv civ : ℚ × ℚ), rows.get? r = some riv →
          cols.get? c = some civ →
          cellAt cs2 r c = some (borderCell civ riv
            (decide (r < a + k ∧ c = 0))
            (decide (r < a + k ∧ c = cols.length - 1)) false false)) := by
  intro k
  induction k with
  | zero =>
    intro a cs ha hlen hrows hptw
    exact ⟨cs, rfl, hlen, hrows, hptw⟩
  | succ k ih =>
    intro a cs ha hlen hrows hptw
    have han : a < rows.length := by omega
    obtain ⟨csB, hbody, hlenB, hrowsB, hptwB⟩ :=
      border1_step cols rows hm a cs han hlen hrows hptw
    obtain ⟨cs2, hfold, hlen2, hrows2, hptw2⟩ :=
      ih (a + 1) csB (by omega) hlenB hrowsB hptwB
    refine ⟨cs2, ?_, hlen2, hrows2, ?_⟩
    · rw [show List.range' a (k + 1) = a :: List.range' (a + 1) k from rfl]
      simp only [exceptFold]
      rw [hbody]
      exact hfold
    · intro r c riv civ hrg hcg
      rw [hptw2 r c riv civ hrg hcg,
        show decide (r < a + 1 + k ∧ c = 0)
            = decide (r < a + (k + 1) ∧ c = 0) from
          decide_eq_decide.mpr (by omega),
        show decide (r < a + 1 + k ∧ c = cols.length - 1)
            = decide (r < a + (k + 1) ∧ c = cols.length - 1) from
          decide_eq_decide.mpr (by omega)]

/-- One iteration of the second `set_border` loop: column `a` receives
`top` on row 0 and `bottom` on the last row. -/
theorem border2_step (cols rows : List (ℚ × ℚ)) (hm : 1 < cols.length)
    (hn : 1 < rows.length)
    (a : ℕ) (cs : Grid) (ham : a < cols.length)
    (hlen : cs.length = rows.length)
    (hrows : ∀ r, r < rows.length → (cs.getD r []).length = cols.length)
    (hptw : ∀ (r c : ℕ) (riv civ : ℚ × ℚ), rows.get? r = some riv →
        cols.get? c = some civ →
        cellAt cs r c = some (borderCell civ riv
          (decide (c = 0)) (decide (c = cols.length - 1))
          (decide (r = 0 ∧ c < a)) (decide (r = rows.length - 1 ∧ c < a)))) :
    ∃ cs2,
      (match setCellE cs 0 (a : ℤ) markTop with
        | Except.error e => Except.error e
        | Except.ok csx =>
            setCellE csx ((rows.length : ℤ) - 1) (a : ℤ) markBottom)
        = Except.ok cs2
      ∧ cs2.length = rows.length
      ∧ (∀ r, r < rows.length → (cs2.getD r []).length = cols.length)
      ∧ (∀ (r c : ℕ) (riv civ : ℚ × ℚ), rows.get? r = some riv →
          cols.get? c = some civ →
          cellAt cs2 r c = some (borderCell civ riv
            (decide (c = 0)) (decide (c = cols.length - 1))
            (decide (r = 0 ∧ c < a + 1))
            (decide (r = rows.length - 1 ∧ c < a + 1)))) := by
  have hn0 : (0 : ℕ) < rows.length := by omega
  have hnm : rows.length - 1 < rows.length := by omega
  have hne0m : (0 : ℕ) ≠ rows.length - 1 := by omega
  have hriv0 := get?_eq_some_getD rows 0 (0, 0) hn0
  have hrivm := get?_eq_some_getD rows (rows.length - 1) (0, 0) hnm
  have hciva := get?_eq_some_getD cols a (0, 0) ham
  set riv0 := rows.getD 0 (0, 0)
  set rivm := rows.getD (rows.length - 1) (0, 0)
  set civa := cols.getD a (0, 0)
  set X0 := borderCell civa riv0 (decide (a = 0)) (decide (a = cols.length - 1))
    false false with hX0
  set Xm := borderCell civa rivm (decide (a = 0)) (decide (a = cols.length - 1))
    false false with hXm
  have hcell0 := hptw 0 a _ _ hriv0 hciva
  rw [show decide ((0 : ℕ) = 0 ∧ a < a) = false from by simp,
      show decide ((0 : ℕ) = rows.length - 1 ∧ a < a) = false from by simp]
    at hcell0
  have hcellm := hptw (rows.length - 1) a _ _ hrivm hciva
  rw [show decide (rows.length - 1 = 0 ∧ a < a) = false from by simp,
      show decide (rows.length - 1 = rows.length - 1 ∧ a < a) = false
        from by simp] at hcellm
  have hr1 : 0 < cs.length := by omega
  have hc1 : a < (cs.getD 0 []).length := by rw [hrows 0 hn0]; omega
  have hg0 : (cs.getD 0 []).get? a = some X0 := by
    rw [← cellAt_of_lt _ _ _ hr1]; exact hcell0
  set csA := cs.set 0 ((cs.getD 0 []).set a (markTop X0)) with hcsA
  have hw1 : setCellE cs 0 (a : ℤ) markTop = .ok csA := by
    have hh := setCellE_nat_ok cs 0 a markTop hr1 hc1
    rw [getD_eq_of_get? default hg0] at hh
    exact_mod_cast hh
  have hlenA : csA.length = rows.length := by
    rw [hcsA, List.length_set]; exact hlen
  have hgAm : csA.getD (rows.length - 1) [] = cs.getD (rows.length - 1) [] := by
    rw [hcsA, getD_set_ne _ _ _ _ hne0m]
  have hr2 : rows.length - 1 < csA.length := by omega
  have hc2 : a < (csA.getD (rows.length - 1) []).length := by
    rw [hgAm, hrows _ hnm]; omega
  have hgm : (csA.getD (rows.length - 1) []).get? a = some Xm := by
    rw [hgAm, ← cellAt_of_lt _ _ _ (by omega : rows.length - 1 < cs.length)]
    exact hcellm
  set csB := csA.set (rows.length - 1)
    ((csA.getD (rows.length - 1) []).set a (markBottom Xm)) with hcsB
  have hw2ok : setCellE csA ((rows.length : ℤ) - 1) (a : ℤ) markBottom
      = .ok csB := by
    have hh := setCellE_nat_ok csA (rows.length - 1) a markBottom hr2 hc2
    rw [getD_eq_of_get? default hgm] at hh
    rw [show ((rows.length : ℤ) - 1) = ((rows.length - 1 : ℕ) : ℤ) from by omega]
    exact hh
  have hlenB : csB.length = rows.length := by
    rw [hcsB, List.length_set]; exact hlenA
  have hrowsA : ∀ r, r < rows.length → (csA.getD r []).length = cols.length := by
    intro r hr
    by_cases hra : (0 : ℕ) = r
    · subst hra
      rw [hcsA, getD_set_self _ _ _ hr1, List.length_set]
      exact hrows 0 hn0
    · rw [hcsA, getD_set_ne _ _ _ _ hra]
      exact hrows r hr
  have hrowsB : ∀ r, r < rows.length → (csB.getD r []).length = cols.length := by
    intro r hr
    by_cases hra : rows.length - 1 = r
    · subst hra
      rw [hcsB, getD_set_self _ _ _ hr2, List.length_set]
      exact hrowsA _ hnm
    · rw [hcsB, getD_set_ne _ _ _ _ hra]
      exact hrowsA r hr
  refine ⟨csB, ?_, hlenB, hrowsB, ?_⟩
  · rw [hw1]
    dsimp only
    exact hw2ok
  · intro r c riv civ hrg hcg
    have hAeq := cellAt_set csA (rows.length - 1) a (markBottom Xm) r c hr2 hc2
    have hBeq := cellAt_set cs 0 a (markTop X0) r c hr1 hc1
    rw [← hcsA] at hBeq
    rw [← hcsB] at hAeq
    rw [hAeq, hBeq, hptw r c riv civ hrg hcg]
    by_cases hca : c = a
    · subst hca
      have hcive : civ = civa := Option.some.inj (hcg.symm.trans hciva)
      subst hcive
      by_cases hr0 : r = 0
      · subst hr0
        have hrive : riv = riv0 := Option.some.inj (hrg.symm.trans hriv0)
        subst hrive
        rw [if_neg (fun hh => hne0m hh.1), if_pos ⟨rfl, rfl⟩,
          show decide ((0 : ℕ) = 0 ∧ c < c + 1) = true from by simp,
          show decide ((0 : ℕ) = rows.length - 1 ∧ c < c + 1) = false from by
            simp only [decide_eq_false_iff_not]
            intro hh
            omega]
        rfl
      · by_cases hrm : r = rows.length - 1
        · subst hrm
          have hrive : riv = rivm := Option.some.inj (hrg.symm.trans hrivm)
          subst hrive
          rw [if_pos ⟨rfl, rfl⟩,
            show decide (rows.length - 1 = 0 ∧ c < c + 1) = false from by
              simp only [decide_eq_false_iff_not]
              intro hh
              omega,
            show decide (rows.length - 1 = rows.length - 1 ∧ c < c + 1) = true
              from by simp]
          rfl
        · rw [if_neg (fun hh => hrm hh.1), if_neg (fun hh => hr0 hh.1),
            show decide (r = 0 ∧ c < c + 1) = decide (r = 0 ∧ c < c) from
              decide_eq_decide.mpr (by
                constructor
                · intro hh; exact absurd hh.1 hr0
                · intro hh; exact absurd hh.1 hr0),
            show decide (r = rows.length - 1 ∧ c < c + 1)
                = decide (r = rows.length - 1 ∧ c < c) from
              decide_eq_decide.mpr (by
                constructor
                · intro hh; exact absurd hh.1 hrm
                · intro hh; exact absurd hh.1 hrm)]
    · rw [if_neg (fun hh => hca hh.2), if_neg (fun hh => hca hh.2),
        show decide (r = 0 ∧ c < a + 1) = decide (r = 0 ∧ c < a) from
          decide_eq_decide.mpr (by omega),
        show decide (r = rows.length - 1 ∧ c < a + 1)
            = decide (r = rows.length - 1 ∧ c < a) from
          decide_eq_decide.mpr (by omega)]

/-- The second `set_border` loop, processing columns `a`, …, `a+k-1`. -/
theorem border_loop2 (cols rows : List (ℚ × ℚ)) (hm : 1 < cols.length)
    (hn : 1 < rows.length) :
    ∀ (k a : ℕ) (cs : Grid), a + k ≤ cols.length →
    cs.length = rows.length →
    (∀ r, r < rows.length → (cs.getD r []).length = cols.length) →
    (∀ (r c : ℕ) (riv civ : ℚ × ℚ), rows.get? r = some riv →
        cols.get? c = some civ →
        cellAt cs r c = some (borderCell civ riv
          (decide (c = 0)) (decide (c = cols.length - 1))
          (decide (r = 0 ∧ c < a)) (decide (r = rows.length - 1 ∧ c < a)))) →
    ∃ cs2,
      exceptFold (fun (c : ℕ) cs =>
          match setCellE cs 0 (c : ℤ) markTop with
          | .error e => .error e
          | .ok csx => setCellE csx ((rows.length : ℤ) - 1) (c : ℤ) markBottom)
        (List.range' a k) cs = .ok cs2
      ∧ cs2.length = rows.length
      ∧ (∀ r, r < rows.length → (cs2.getD r []).length = cols.length)
      ∧ (∀ (r c : ℕ) (riv civ : ℚ × ℚ), rows.get? r = some riv →
          cols.get? c = some civ →
          cellAt cs2 r c = some (borderCell civ riv
            (decide (c = 0)) (decide (c = cols.length - 1))
            (decide (r = 0 ∧ c < a + k))
            (decide (r = rows.length - 1 ∧ c < a + k)))) := by
  intro k
  induction k with
  | zero =>
    intro a cs ha hlen hrows hptw
    exact ⟨cs, rfl, hlen, hrows, hptw⟩
  | succ k ih =>
    intro a cs ha hlen hrows hptw
    have ham : a < cols.length := by omega
    obtain ⟨csB, hbody, hlenB, hrowsB, hptwB⟩ :=
      border2_step cols rows hm hn a cs ham hlen hrows hptw
    obtain ⟨cs2, hfold, hlen2, hrows2, hptw2⟩ :=
      ih (a + 1) csB (by omega) hlenB hrowsB hptwB
    refine ⟨cs2, ?_, hlen2, hrows2, ?_⟩
    · rw [show List.range' a (k + 1) = a :: List.range' (a + 1) k from rfl]
      simp only [exceptFold]
      rw [hbody]
      exact hfold
    · intro r c riv civ hrg hcg
      rw [hptw2 r c riv civ hrg hcg,
        show decide (r = 0 ∧ c < a + 1 + k)
            = decide (r = 0 ∧ c < a + (k + 1)) from
          decide_eq_decide.mpr (by omega),
        show decide (r = rows.length - 1 ∧ c < a + 1 + k)
            = decide (r = rows.length - 1 ∧ c < a + (k + 1)) from
          decide_eq_decide.mpr (by omega)]

/-- A list whose entries are known pointwise sums to the corresponding
`Finset.range` sum. -/
theorem sum_of_get? (l : List ℕ) (f : ℕ → ℕ)
    (h : ∀ i, i < l.length → l.get? i = some (f i)) :
    l.sum = ∑ i in Finset.range l.length, f i := by
  induction l generalizing f with
  | nil => simp
  | cons x t ih =>
    have h0 : x = f 0 := by
      have hh := h 0 (by simp)
      simpa using hh
    have ht : ∀ i, i < t.length → t.get? i = some (f (i + 1)) := by
      intro i hi
      have hh := h (i + 1) (by simp only [List.length_cons]; omega)
      simpa using hh
    rw [List.sum_cons, ih (fun i => f (i + 1)) ht, List.length_cons,
      Finset.sum_range_succ', h0, Nat.add_comm]

/-- C5: on a fresh N×M grid with N,M > 1, `set_border` sets exactly
2N+2M boundary flags in total, and every cell's flags are exactly the
perimeter pattern (`left` iff column 0, `right` iff last column, `top`
iff row 0, `bottom` iff last row) — in particular no interior cell
gains any flag. -/
theorem c5_set_border_count (cols rows : List (ℚ × ℚ))
    (hm : 1 < cols.length) (hn : 1 < rows.length) (t2 : Table)
    (h : (Table.init cols rows).set_border = .ok t2) :
    totalBound t2.cells = 2 * rows.length + 2 * cols.length
    ∧ (∀ (r c : ℕ) (cell : Cell), cellAt t2.cells r c = some cell →
        cell.left = decide (c = 0) ∧ cell.right = decide (c = cols.length - 1)
        ∧ cell.top = decide (r = 0)
        ∧ cell.bottom = decide (r = rows.length - 1)) := by
  set g0 := (Table.init cols rows).cells with hg0
  have hlen0 : g0.length = rows.length := by
    rw [hg0]; simp [Table.init]
  have hrows0 : ∀ r, r < rows.length → (g0.getD r []).length = cols.length := by
    intro r hr
    rw [hg0, List.getD_eq_get?]
    show (((Table.init cols rows).cells.get? r).getD []).length = cols.length
    simp only [Table.init, List.get?_map]
    cases hrr : rows.get? r with
    | none =>
      rw [List.get?_eq_none] at hrr
      omega
    | some riv => simp
  have hptw0 : ∀ (r c : ℕ) (riv civ : ℚ × ℚ), rows.get? r = some riv →
      cols.get? c = some civ →
      cellAt g0 r c = some (borderCell civ riv
        (decide (r < 0 ∧ c = 0)) (decide (r < 0 ∧ c = cols.length - 1))
        false false) := by
    intro r c riv civ hrg hcg
    rw [hg0, cellAt_init, hrg, Option.some_bind, hcg]
    simp [Cell.init, borderCell]
  obtain ⟨cs1, hfold1, hlen1, hrows1, hptw1⟩ :=
    border_loop1 cols rows hm rows.length 0 g0 (by omega) hlen0 hrows0 hptw0
  have hptw1b : ∀ (r c : ℕ) (riv civ : ℚ × ℚ), rows.get? r = some riv →
      cols.get? c = some civ →
      cellAt cs1 r c = some (borderCell civ riv
        (decide (c = 0)) (decide (c = cols.length - 1))
        (decide (r = 0 ∧ c < 0)) (decide (r = rows.length - 1 ∧ c < 0))) := by
    intro r c riv civ hrg hcg
    have hrn : r < rows.length := by
      by_contra hh
      rw [List.get?_eq_none.mpr (by omega)] at hrg
      exact Option.noConfusion hrg
    rw [show decide (r = 0 ∧ c < 0) = false from by simp,
      show decide (r = rows.length - 1 ∧ c < 0) = false from by simp,
      show decide (c = 0) = decide (r < 0 + rows.length ∧ c = 0) from
        decide_eq_decide.mpr (by omega),
      show decide (c = cols.length - 1)
          = decide (r < 0 + rows.length ∧ c = cols.length - 1) from
        decide_eq_decide.mpr (by omega)]
    exact hptw1 r c riv civ hrg hcg
  obtain ⟨cs2, hfold2, hlen2, hrows2, hptw2⟩ :=
    border_loop2 cols rows hm hn cols.length 0 cs1 (by omega) hlen1 hrows1 hptw1b
  have hfin : ∀ (r c : ℕ) (riv civ : ℚ × ℚ), rows.get? r = some riv →
      cols.get? c = some civ →
      cellAt cs2 r c = some (borderCell civ riv
        (decide (c = 0)) (decide (c = cols.length - 1))
        (decide (r = 0)) (decide (r = rows.length - 1))) := by
    intro r c riv civ hrg hcg
    have hcm : c < cols.length := by
      by_contra hh
      rw [List.get?_eq_none.mpr (by omega)] at hcg
      exact Option.noConfusion hcg
    rw [show decide (r = 0) = decide (r = 0 ∧ c < 0 + cols.length) from
        decide_eq_decide.mpr (by omega),
      show decide (r = rows.length - 1)
          = decide (r = rows.length - 1 ∧ c < 0 + cols.length) from
        decide_eq_decide.mpr (by omega)]
    exact hptw2 r c riv civ hrg hcg
  -- connect the hypothesis to the two loop characterizations
  unfold Table.set_border at h
  dsimp only at h
  simp only [show (Table.init cols rows).cols = cols from rfl,
    show (Table.init cols rows).rows = rows from rfl, ← hg0,
    List.range_eq_range'] at h
  rw [hfold1] at h
  dsimp only at h
  rw [hfold2] at h
  dsimp only at h
  cases h
  have ht2cells : ({ Table.init cols rows with cells := cs2 } : Table).cells
      = cs2 := rfl
  rw [ht2cells]
  constructor
  · -- the flag count
    have hinner : ∀ r, r < rows.length →
        (((cs2.getD r []).map Cell.bound)).sum
          = ∑ c in Finset.range cols.length,
              ((decide (r = 0)).toNat + (decide (r = rows.length - 1)).toNat
               + (decide (c = 0)).toNat + (decide (c = cols.length - 1)).toNat) := by
      intro r hr
      have hlr : (cs2.getD r []).length = cols.length := hrows2 r hr
      have hsum := sum_of_get? ((cs2.getD r []).map Cell.bound)
        (fun c => (decide (r = 0)).toNat + (decide (r = rows.length - 1)).toNat
          + (decide (c = 0)).toNat + (decide (c = cols.length - 1)).toNat) ?_
      · rw [hsum, List.length_map, hlr]
      · intro i hi
        rw [List.length_map, hlr] at hi
        rw [List.get?_map, ← cellAt_of_lt _ _ _ (by omega : r < cs2.length),
          hfin r i _ _ (get?_eq_some_getD rows r (0, 0) hr)
            (get?_eq_some_getD cols i (0, 0) hi)]
        rfl
    have houter := sum_of_get?
      (cs2.map (fun row => (row.map Cell.bound).sum))
      (fun r => ∑ c in Finset.range cols.length,
        ((decide (r = 0)).toNat + (decide (r = rows.length - 1)).toNat
         + (decide (c = 0)).toNat + (decide (c = cols.length - 1)).toNat)) ?_
    · unfold totalBound
      rw [houter, List.length_map, hlen2]
      have htn : ∀ (p : Prop) (inst : Decidable p),
          (decide p).toNat = if p then 1 else 0 := by
        intro p inst
        by_cases hp : p <;> simp [hp]
      simp only [htn]
      have h0m : (0 : ℕ) ∈ Finset.range cols.length := by
        simp only [Finset.mem_range]; omega
      have hmm : cols.length - 1 ∈ Finset.range cols.length := by
        simp only [Finset.mem_range]; omega
      have h0n : (0 : ℕ) ∈ Finset.range rows.length := by
        simp only [Finset.mem_range]; omega
      have hnn : rows.length - 1 ∈ Finset.range rows.length := by
        simp only [Finset.mem_range]; omega
      have hne_m : (0 : ℕ) ≠ cols.length - 1 := by omega
      have hne_n : (0 : ℕ) ≠ rows.length - 1 := by omega
      rw [show (∑ r in Finset.range rows.length,
          ∑ c in Finset.range cols.length,
            ((if r = 0 then 1 else 0) + (if r = rows.length - 1 then 1 else 0)
             + (if c = 0 then 1 else 0)
             + (if c = cols.length - 1 then 1 else 0)))
          = ∑ r in Finset.range rows.length,
            (cols.length * ((if r = 0 then 1 else 0)
              + (if r = rows.length - 1 then 1 else 0)) + 2) from ?_]
      · rw [Finset.sum_add_distrib, Finset.sum_const, Finset.card_range,
          smul_eq_mul, ← Finset.mul_sum, Finset.sum_add_distrib,
          Finset.sum_ite_eq' (Finset.range rows.length) 0 (fun _ => 1),
          Finset.sum_ite_eq' (Finset.range rows.length) (rows.length - 1)
            (fun _ => 1),
          if_pos h0n, if_pos hnn]
        ring
      · refine Finset.sum_congr rfl ?_
        intro r _
        rw [Finset.sum_add_distrib, Finset.sum_add_distrib,
          Finset.sum_add_distrib, Finset.sum_const, Finset.sum_const,
          Finset.card_range, smul_eq_mul, smul_eq_mul,
          Finset.sum_ite_eq' (Finset.range cols.length) 0 (fun _ => 1),
          Finset.sum_ite_eq' (Finset.range cols.length) (cols.length - 1)
            (fun _ => 1),
          if_pos h0m, if_pos hmm]
        ring
    · intro i hi
      rw [List.length_map, hlen2] at hi
      rw [List.get?_map, get?_eq_some_getD cs2 i [] (by omega)]
      simp only [Option.map_some']
      rw [hinner i hi]
  · -- the per-cell flag pattern
    intro r c cell hcell
    have hrn : r < rows.length := by
      by_contra hh
      unfold cellAt at hcell
      rw [List.get?_eq_none.mpr (by omega)] at hcell
      exact Option.noConfusion hcell
    have hcm : c < cols.length := by
      by_contra hh
      rw [cellAt_of_lt _ _ _ (by omega : r < cs2.length)] at hcell
      rw [List.get?_eq_none.mpr (by rw [hrows2 r hrn]; omega)] at hcell
      exact Option.noConfusion hcell
    have hfin2 := hfin r c _ _ (get?_eq_some_getD rows r (0, 0) hrn)
      (get?_eq_some_getD cols c (0, 0) hcm)
    rw [hcell] at hfin2
    cases Option.some.inj hfin2
    exact ⟨rfl, rfl, rfl, rfl⟩

/-- Witness for C5 on the 2×2 scenario grid: 2·2+2·2 = 8 flags. -/
theorem c5_set_border_count_witness :
    totalBound TEx3.cells = 8
    ∧ ((⟨10, 10, 20, 20, false, true, true, false, false, false, ""⟩ : Cell).left
          = decide ((1 : ℕ) = 0)
        ∧ (⟨10, 10, 20, 20, false, true, true, false, false, false, ""⟩ : Cell).right
          = decide ((1 : ℕ) = [(0, 10), (10, 20)].length - 1)
        ∧ (⟨10, 10, 20, 20, false, true, true, false, false, false, ""⟩ : Cell).top
          = decide ((0 : ℕ) = 0)
        ∧ (⟨10, 10, 20, 20, false, true, true, false, false, false, ""⟩ : Cell).bottom
          = decide ((0 : ℕ) = [(20, 10), (10, 0)].length - 1)) := by
  constructor
  · have hh := (c5_set_border_count [(0, 10), (10, 20)] [(20, 10), (10, 0)]
      (by decide) (by decide) TEx3 (by decide)).1
    simpa using hh
  · exact (c5_set_border_count [(0, 10), (10, 20)] [(20, 10), (10, 0)]
      (by decide) (by decide) TEx3 (by decide)).2 0 1
      ⟨10, 10, 20, 20, false, true, true, false, false, false, ""⟩ (by decide)

end Camelot
